import Mathlib

/-!
Verification of the quizit repository's natural-language specification against
a shallow embedding of its Python sources.

Conventions of the embedding:
* Python byte strings are lists of naturals; Python text is a list of
  characters (so slicing and scanning match the source index arithmetic).
* Python floats are modelled as exact rationals.  The only float values in
  the embedded code are the scale factor chain `min(1.0, max_dim/max(w,h)) *
  0.85^k` and the size test `len(data)/1024 <= target_kb`; the latter is the
  exact integer inequality `len ≤ target_kb * 1024`, which is how it is
  written below.
* External effects (the PIL JPEG encoder, the filesystem cache, the
  image-generation API, the storage client, `os.environ`, the `.env.local`
  file) are oracle functions passed as parameters; the embedded control flow
  around them is translated from the source.
* Loops are embedded as fuel recursion; the fuel bounds are generous and
  lemmas below show the embedded loops never exhaust them, mirroring the
  termination of the Python loops.
-/

namespace Quizit

/-- Byte strings (Python `bytes`) as lists of naturals. -/
abbrev Bytes := List Nat

/-- Oracle for `jpeg_bytes(im, quality)` from gen_image.py lines 65-68: the
encoder is external (PIL); it is a function of the working image's
dimensions and the quality parameter. -/
abbrev JpegEnc := Nat → Nat → Nat → Bytes

/-- The value the `while True` loop of gen_image.py lines 70-99 breaks with:
the chosen bytes, together with the dimensions of the working image and the
quality that produced them (observable through which encoder call made the
bytes). -/
structure EncPick where
  bytes : Bytes
  usedW : Nat
  usedH : Nat
  usedQ : Nat
deriving DecidableEq

/-- The value `compress_to_jpeg` returns: the pair `(bytes, mime)` of
gen_image.py lines 104-105, plus whether the line 103 warning was printed and
the dimensions/quality that produced the bytes. -/
structure CompressResult where
  bytes : Bytes
  mime : String
  warned : Bool
  usedW : Nat
  usedH : Nat
  usedQ : Nat
deriving DecidableEq

/-- Inner binary search of gen_image.py lines 75-87:

    lo, hi = 10, 95
    while lo <= hi:
        q = (lo + hi) // 2
        data = jpeg_bytes(work, q)
        size_kb = len(data) / 1024
        if size_kb <= target_kb:
            local_best = data; local_size = size_kb; hi = q - 1
        else:
            lo = q + 1

`size_kb <= target_kb` is written as the exact equivalent
`data.length ≤ targetKb * 1024`.  The result is the final `local_best`
(with its quality); the outer `none` marks fuel exhaustion, which lemma
`binSearch_ne_none` below shows is unreachable from the initial bounds. -/
def binSearch (jp : JpegEnc) (ww wh targetKb : Nat) :
    Nat → Nat → Nat → Option (Bytes × Nat) → Option (Option (Bytes × Nat))
  | 0, _, _, _ => none
  | fuel + 1, lo, hi, best =>
    if lo ≤ hi then
      let q := (lo + hi) / 2
      let data := jp ww wh q
      if data.length ≤ targetKb * 1024 then
        binSearch jp ww wh targetKb fuel lo (q - 1) (some (data, q))
      else
        binSearch jp ww wh targetKb fuel (q + 1) hi best
    else
      some best

/-- Working image dimensions, gen_image.py lines 71-73:

    work = img
    if scale < 1.0:
        work = img.resize((max(1, int(w * scale)), max(1, int(h * scale))), ...)

`int` truncation of a nonnegative float is the floor; `Int.toNat` of
`Rat.floor` agrees with Python's `max(1, int(...))` for every sign (both
clamp the negative case to 1). -/
def workDims (w h : Nat) (s : ℚ) : Nat × Nat :=
  if s < 1 then (max 1 (((w : ℚ) * s).floor).toNat, max 1 (((h : ℚ) * s).floor).toNat)
  else (w, h)

/-- Outer `while True` loop of gen_image.py lines 70-99.  Each iteration runs
the inner binary search at the current scale; on success it breaks with the
found candidate; otherwise it multiplies the scale by 0.85 and either takes
the quality-10 fallback (lines 95-99, when the working image's longer side is
at most `min_dim` or the updated scale is at most 0.2) or retries.  `none`
marks fuel exhaustion (inner or outer), shown unreachable by
`compressLoop_ne_none`. -/
def compressLoop (jp : JpegEnc) (targetKb minDim w h : Nat) :
    Nat → ℚ → Option EncPick
  | 0, _ => none
  | fuel + 1, s =>
    let ww := (workDims w h s).1
    let wh := (workDims w h s).2
    match binSearch jp ww wh targetKb 87 10 95 none with
    | none => none
    | some (some (data, q)) => some ⟨data, ww, wh, q⟩
    | some none =>
      let s2 := s * (0.85 : ℚ)
      if max ww wh ≤ minDim ∨ s2 ≤ (0.2 : ℚ) then
        some ⟨jp ww wh 10, ww, wh, 10⟩
      else
        compressLoop jp targetKb minDim w h fuel s2

/-- Initial scale, gen_image.py line 60: `scale = min(1.0, max_dim / max(w, h))`,
written as the conditional Python's `min` computes; `initialScale_eq_min`
below restates it as a lattice `min`. -/
def initialScale (w h maxDim : Nat) : ℚ :=
  if (maxDim : ℚ) / ((max w h : Nat) : ℚ) < 1 then (maxDim : ℚ) / ((max w h : Nat) : ℚ)
  else 1

theorem initialScale_eq_min (w h maxDim : Nat) :
    initialScale w h maxDim = min 1 ((maxDim : ℚ) / ((max w h : Nat) : ℚ)) := by
  unfold initialScale
  rcases le_or_lt 1 ((maxDim : ℚ) / ((max w h : Nat) : ℚ)) with hle | hlt
  · rw [if_neg (not_lt.mpr hle), min_eq_left hle]
  · rw [if_pos hlt, min_eq_right hlt.le]

/-- Embedding of compress_to_jpeg, gen_image.py lines 51-105, for an
already-decoded image of dimensions `w × h` (decoding and the RGB
conversion are external).
`min_dim = 320` is the constant of line 61 and the outer fuel 11 covers the
at most 10 iterations the 0.85 decay allows (lemma `compressLoop_ne_none`).
After the loop, lines 101-105: if the best bytes are non-empty the pair
`(best_bytes, "image/jpeg")` is returned, with the line 103 warning exactly
when `best_size_kb > target_kb` (the exact integer form of which is
`targetKb * 1024 < length`); otherwise `(raw, "image/jpeg")`. -/
def compress_to_jpeg (jp : JpegEnc) (raw : Bytes) (targetKb maxDim w h : Nat) :
    Option CompressResult :=
  match compressLoop jp targetKb 320 w h 11 (initialScale w h maxDim) with
  | none => none
  | some r =>
    if r.bytes ≠ [] then
      some ⟨r.bytes, "image/jpeg", decide (targetKb * 1024 < r.bytes.length),
        r.usedW, r.usedH, r.usedQ⟩
    else
      some ⟨raw, "image/jpeg", false, r.usedW, r.usedH, r.usedQ⟩

/-! Claim theorems for compress_to_jpeg. -/

/-- Encoder oracle used for the C1 evaluation: the encoding at quality `q`
has exactly `q` bytes, so sizes are strictly monotone in quality and every
quality in [10, 95] is within a 1 KB budget. -/
def jpegLinear : JpegEnc := fun _ _ q => List.replicate q 0

/-- Evaluation of the embedded `compress_to_jpeg` on the `jpegLinear`
oracle with `target_kb = 1` and a 1 times 1 image: the code returns the
quality-10 encoding. -/
theorem compressEval_jpegLinear :
    compress_to_jpeg jpegLinear [7] 1 1600 1 1 =
      some ⟨List.replicate 10 0, "image/jpeg", false, 1, 1, 10⟩ := by
  have h0 : initialScale 1 1 1600 = 1 := by unfold initialScale; norm_num
  have h1 : workDims 1 1 1 = (1, 1) := by unfold workDims; norm_num
  have h2 : binSearch jpegLinear 1 1 1 87 10 95 none =
      some (some (List.replicate 10 0, 10)) := by decide
  have h3 : compressLoop jpegLinear 1 320 1 1 11 1 = some ⟨List.replicate 10 0, 1, 1, 10⟩ := by
    show compressLoop jpegLinear 1 320 1 1 (10 + 1) 1 = _
    rw [compressLoop, h1, h2]
  unfold compress_to_jpeg
  rw [h0, h3]
  decide

/-- C1: the claim says that when some quality in [10, 95] at the initial
scale meets the budget, `compress_to_jpeg` returns the encoding at the
highest such quality.  Evaluating the embedded code on an encoder where
every quality in [10, 95] meets the budget (so the highest satisfying
quality is 95): the function returns the 10-byte quality-10 encoding, not
the quality-95 encoding.  The binary search of lines 82-87 moves `hi`
down on success and `lo` up on failure, so it converges on the lowest
quality it probes that fits, contradicting the stated intent (and the
line 93 comment, which assumes the lowest quality was tried before
rescaling). -/
theorem C1_code_picks_lowest_quality :
    (jpegLinear 1 1 95).length ≤ 1 * 1024 ∧
    compress_to_jpeg jpegLinear [7] 1 1600 1 1 =
      some ⟨List.replicate 10 0, "image/jpeg", false, 1, 1, 10⟩ ∧
    List.replicate 10 (0 : Nat) ≠ jpegLinear 1 1 95 :=
  ⟨by decide, compressEval_jpegLinear, by decide⟩

/-- C4: on every return path of `compress_to_jpeg` — the binary-search
success path, the fallback path, and the final `return raw` path of line
105 — the mime component of the result is the string of lines 104-105,
namely image/jpeg. -/
theorem C4_mime_always_jpeg (jp : JpegEnc) (raw : Bytes) (targetKb maxDim w h : Nat)
    (r : CompressResult)
    (hres : compress_to_jpeg jp raw targetKb maxDim w h = some r) :
    r.mime = "image/jpeg" := by
  unfold compress_to_jpeg at hres
  cases hL : compressLoop jp targetKb 320 w h 11 (initialScale w h maxDim) with
  | none => rw [hL] at hres; simp at hres
  | some p =>
    rw [hL] at hres
    dsimp only at hres
    by_cases hb : p.bytes ≠ []
    · rw [if_pos hb] at hres
      cases hres
      rfl
    · rw [if_neg hb] at hres
      cases hres
      rfl

/-- Witness for C4 at a concrete input: the result of the C1 evaluation
input has mime image/jpeg. -/
theorem C4_mime_always_jpeg_witness :
    (⟨List.replicate 10 0, "image/jpeg", false, 1, 1, 10⟩ : CompressResult).mime =
      "image/jpeg" :=
  C4_mime_always_jpeg jpegLinear [7] 1 1600 1 1 _ compressEval_jpegLinear

/-- C5: the initial downscale factor is `min(1.0, max_dimension / max(w, h))`
(the formula of line 60), and an image whose longer side is already within
`max_dimension` gets scale 1.0, so the first encoding attempt works on the
original, un-resized dimensions (the line 72 resize is skipped). -/
theorem C5_initial_scale_no_upscale (w h maxDim : Nat) (hw : 1 ≤ w)
    (hle : max w h ≤ maxDim) :
    initialScale w h maxDim = min 1 ((maxDim : ℚ) / ((max w h : Nat) : ℚ)) ∧
    initialScale w h maxDim = 1 ∧
    workDims w h (initialScale w h maxDim) = (w, h) := by
  have hm : 0 < max w h := Nat.lt_of_lt_of_le Nat.zero_lt_one (le_trans hw (le_max_left w h))
  have hpos : (0 : ℚ) < ((max w h : Nat) : ℚ) := by exact_mod_cast hm
  have hdiv : 1 ≤ (maxDim : ℚ) / ((max w h : Nat) : ℚ) := by
    rw [le_div_iff₀ hpos, one_mul]
    exact_mod_cast hle
  have h1 : initialScale w h maxDim = 1 := by
    unfold initialScale
    rw [if_neg (not_lt.mpr hdiv)]
  refine ⟨initialScale_eq_min w h maxDim, h1, ?_⟩
  rw [h1]
  unfold workDims
  rw [if_neg (lt_irrefl (1 : ℚ))]

/-- Witness for C5 at the 200 times 150 scenario of the spec with the default
1600 pixel bound. -/
theorem C5_initial_scale_no_upscale_witness :
    initialScale 200 150 1600 = min 1 ((1600 : ℚ) / ((max 200 150 : Nat) : ℚ)) ∧
    initialScale 200 150 1600 = 1 ∧
    workDims 200 150 (initialScale 200 150 1600) = (200, 150) :=
  C5_initial_scale_no_upscale 200 150 1600 (by decide) (by decide)

/-! Termination of the embedded loops within their fuel, mirroring the
termination argument of the Python loops: the inner range [lo, hi] shrinks
each iteration, and the outer scale decays by the factor 0.85. -/

/-- The binary search needs fewer fuel steps than its range is wide. -/
theorem binSearch_ne_none (jp : JpegEnc) (ww wh t : Nat) :
    ∀ fuel lo hi best, 1 ≤ lo → hi + 1 - lo < fuel →
      binSearch jp ww wh t fuel lo hi best ≠ none := by
  intro fuel
  induction fuel with
  | zero => intro lo hi best h1 h2; omega
  | succ f ih =>
    intro lo hi best h1 h2
    rw [binSearch]
    by_cases hle : lo ≤ hi
    · rw [if_pos hle]
      dsimp only
      by_cases hsz : (jp ww wh ((lo + hi) / 2)).length ≤ t * 1024
      · rw [if_pos hsz]
        exact ih lo ((lo + hi) / 2 - 1) _ h1 (by omega)
      · rw [if_neg hsz]
        exact ih ((lo + hi) / 2 + 1) hi best (by omega) (by omega)
    · rw [if_neg hle]
      simp

/-- The outer loop needs one more fuel step than the number of 0.85
multiplications it takes the scale to reach the 0.2 stopping bound. -/
theorem compressLoop_ne_none (jp : JpegEnc) (tKb minDim w h : Nat) :
    ∀ fuel (s : ℚ), 0 ≤ s → s * (0.85 : ℚ) ^ fuel ≤ (0.2 : ℚ) →
      compressLoop jp tKb minDim w h (fuel + 1) s ≠ none := by
  intro fuel
  induction fuel with
  | zero =>
    intro s h0 hs
    rw [pow_zero, mul_one] at hs
    rw [compressLoop]
    dsimp only
    cases hbs : binSearch jp (workDims w h s).1 (workDims w h s).2 tKb 87 10 95 none with
    | none =>
      exact absurd hbs (binSearch_ne_none jp _ _ tKb 87 10 95 none (by omega) (by omega))
    | some b =>
      cases b with
      | some p => simp
      | none =>
        have hcond : s * (0.85 : ℚ) ≤ (0.2 : ℚ) := by
          have h85 : s * (0.85 : ℚ) ≤ s * 1 :=
            mul_le_mul_of_nonneg_left (by norm_num) h0
          rw [mul_one] at h85
          exact le_trans h85 hs
        dsimp only
        rw [if_pos (Or.inr hcond)]
        simp
  | succ f ih =>
    intro s h0 hs
    rw [compressLoop]
    dsimp only
    cases hbs : binSearch jp (workDims w h s).1 (workDims w h s).2 tKb 87 10 95 none with
    | none =>
      exact absurd hbs (binSearch_ne_none jp _ _ tKb 87 10 95 none (by omega) (by omega))
    | some b =>
      cases b with
      | some p => simp
      | none =>
        dsimp only
        split
        · simp
        · have h0s : (0 : ℚ) ≤ s * (0.85 : ℚ) := mul_nonneg h0 (by norm_num)
          have hss : s * (0.85 : ℚ) * (0.85 : ℚ) ^ f ≤ (0.2 : ℚ) := by
            calc s * (0.85 : ℚ) * (0.85 : ℚ) ^ f = s * (0.85 : ℚ) ^ (f + 1) := by ring
            _ ≤ (0.2 : ℚ) := hs
          exact ih (s * (0.85 : ℚ)) h0s hss

/-- Whatever candidate the binary search returns was produced by the encoder
oracle at the recorded quality. -/
theorem binSearch_link (jp : JpegEnc) (ww wh t : Nat) :
    ∀ fuel lo hi best res,
      binSearch jp ww wh t fuel lo hi best = some res →
      (∀ d q, best = some (d, q) → d = jp ww wh q) →
      ∀ d q, res = some (d, q) → d = jp ww wh q := by
  intro fuel
  induction fuel with
  | zero => intro lo hi best res h; cases h
  | succ f ih =>
    intro lo hi best res h hbest
    rw [binSearch] at h
    by_cases hle : lo ≤ hi
    · rw [if_pos hle] at h
      dsimp only at h
      by_cases hsz : (jp ww wh ((lo + hi) / 2)).length ≤ t * 1024
      · rw [if_pos hsz] at h
        refine ih _ _ _ _ h ?_
        intro d q hdq
        cases hdq
        rfl
      · rw [if_neg hsz] at h
        exact ih _ _ _ _ h hbest
    · rw [if_neg hle] at h
      cases h
      exact hbest

/-- Whatever pick the outer loop returns: its bytes come from the encoder
oracle evaluated at the recorded dimensions and quality. -/
theorem compressLoop_link (jp : JpegEnc) (tKb minDim w h : Nat) :
    ∀ fuel (s : ℚ) r, compressLoop jp tKb minDim w h fuel s = some r →
      r.bytes = jp r.usedW r.usedH r.usedQ := by
  intro fuel
  induction fuel with
  | zero => intro s r hcl; cases hcl
  | succ f ih =>
    intro s r hcl
    rw [compressLoop] at hcl
    dsimp only at hcl
    cases hbs : binSearch jp (workDims w h s).1 (workDims w h s).2 tKb 87 10 95 none with
    | none => rw [hbs] at hcl; cases hcl
    | some b =>
      rw [hbs] at hcl
      cases b with
      | some p =>
        obtain ⟨data, q⟩ := p
        dsimp only at hcl
        cases hcl
        refine binSearch_link jp _ _ tKb 87 10 95 none _ hbs ?_ data q rfl
        intro d q hdq
        cases hdq
      | none =>
        dsimp only at hcl
        split at hcl
        · cases hcl
          rfl
        · exact ih _ _ hcl

theorem initialScale_nonneg (w h maxDim : Nat) : (0 : ℚ) ≤ initialScale w h maxDim := by
  unfold initialScale
  split
  · positivity
  · norm_num

theorem initialScale_le_one (w h maxDim : Nat) : initialScale w h maxDim ≤ 1 := by
  unfold initialScale
  split
  · exact le_of_lt (by assumption)
  · norm_num

theorem initialScale_mul_le (w h maxDim : Nat) (hw : 1 ≤ w) :
    initialScale w h maxDim * ((max w h : Nat) : ℚ) ≤ (maxDim : ℚ) := by
  have hm : 0 < max w h := Nat.lt_of_lt_of_le Nat.zero_lt_one (le_trans hw (le_max_left w h))
  have hpos : (0 : ℚ) < ((max w h : Nat) : ℚ) := by exact_mod_cast hm
  unfold initialScale
  split
  · rw [div_mul_cancel₀ _ (ne_of_gt hpos)]
  · rw [one_mul]
    have hge : 1 ≤ (maxDim : ℚ) / ((max w h : Nat) : ℚ) := not_lt.mp (by assumption)
    rw [le_div_iff₀ hpos, one_mul] at hge
    exact hge

/-- C2: for a decodable image (dimensions at least 1) and any positive
`target_kb`, the embedded `compress_to_jpeg` always completes within the
loop fuel (the scale decays from at most 1 by a factor 0.85 per outer
iteration, so at most 10 outer iterations run before the 0.2 bound stops
the loop, and the binary search range [10, 95] is bounded), and — provided
the external encoder never returns empty bytes — returns a result whose
bytes are some non-empty encoder output; it never fails because the target
is unreachable. -/
theorem C2_terminates_nonempty (jp : JpegEnc) (raw : Bytes) (targetKb maxDim w h : Nat)
    (hjp : ∀ a b q, jp a b q ≠ ([] : Bytes)) (_hw : 1 ≤ w) (_hh : 1 ≤ h)
    (_ht : 1 ≤ targetKb) :
    ∃ r, compress_to_jpeg jp raw targetKb maxDim w h = some r ∧
      r.bytes ≠ [] ∧ r.bytes = jp r.usedW r.usedH r.usedQ := by
  have hdecay : initialScale w h maxDim * (0.85 : ℚ) ^ 10 ≤ (0.2 : ℚ) := by
    have hp : (0 : ℚ) ≤ (0.85 : ℚ) ^ 10 := by positivity
    have := mul_le_mul_of_nonneg_right (initialScale_le_one w h maxDim) hp
    rw [one_mul] at this
    exact le_trans this (by norm_num)
  have hterm := compressLoop_ne_none jp targetKb 320 w h 10 (initialScale w h maxDim)
    (initialScale_nonneg w h maxDim) hdecay
  cases hL : compressLoop jp targetKb 320 w h 11 (initialScale w h maxDim) with
  | none => exact absurd hL hterm
  | some p =>
    have hlink := compressLoop_link jp targetKb 320 w h 11 _ p hL
    have hb : p.bytes ≠ [] := by
      rw [hlink]
      exact hjp _ _ _
    refine ⟨⟨p.bytes, "image/jpeg", decide (targetKb * 1024 < p.bytes.length),
      p.usedW, p.usedH, p.usedQ⟩, ?_, hb, hlink⟩
    unfold compress_to_jpeg
    rw [hL]
    dsimp only
    rw [if_pos hb]

/-- Witness for C2: a constant one-byte encoder on a 1 times 1 image. -/
theorem C2_terminates_nonempty_witness :
    ∃ r, compress_to_jpeg (fun _ _ _ => [0]) [] 1 1600 1 1 = some r ∧
      r.bytes ≠ [] ∧ r.bytes = (fun _ _ _ => ([0] : Bytes)) r.usedW r.usedH r.usedQ :=
  C2_terminates_nonempty (fun _ _ _ => [0]) [] 1 1600 1 1
    (fun a b q => by simp) (by decide) (by decide) (by decide)

/-- Dimension bounds for the working image: under the scale invariant
`0 ≤ s ≤ 1` and `s * max(w, h) ≤ maxDim`, both working dimensions are at
least 1 and the longer one is at most `maxDim`. -/
theorem workDims_bounds (w h maxDim : Nat) (s : ℚ) (hw : 1 ≤ w) (hh : 1 ≤ h)
    (hm : 1 ≤ maxDim) (h0 : 0 ≤ s) (h1 : s ≤ 1)
    (h2 : s * ((max w h : Nat) : ℚ) ≤ (maxDim : ℚ)) :
    1 ≤ (workDims w h s).1 ∧ 1 ≤ (workDims w h s).2 ∧
    max (workDims w h s).1 (workDims w h s).2 ≤ maxDim := by
  unfold workDims
  by_cases hs : s < 1
  · rw [if_pos hs]
    dsimp only
    have bound : ∀ d : Nat, d ≤ max w h → max 1 (((d : ℚ) * s).floor).toNat ≤ maxDim := by
      intro d hd
      have hds : (d : ℚ) * s ≤ (maxDim : ℚ) := by
        calc (d : ℚ) * s ≤ ((max w h : Nat) : ℚ) * s :=
              mul_le_mul_of_nonneg_right (by exact_mod_cast hd) h0
          _ = s * ((max w h : Nat) : ℚ) := by ring
          _ ≤ (maxDim : ℚ) := h2
      have hfl : ((d : ℚ) * s).floor ≤ (maxDim : ℤ) := by
        have heq : ((d : ℚ) * s).floor = ⌊(d : ℚ) * s⌋ := rfl
        have hcast : ((⌊(d : ℚ) * s⌋ : ℤ) : ℚ) ≤ (maxDim : ℚ) :=
          le_trans (Int.floor_le _) hds
        rw [heq]
        exact_mod_cast hcast
      have ht : (((d : ℚ) * s).floor).toNat ≤ maxDim := Int.toNat_le.mpr hfl
      exact max_le hm ht
    exact ⟨le_max_left 1 _, le_max_left 1 _,
      max_le (bound w (le_max_left w h)) (bound h (le_max_right w h))⟩
  · rw [if_neg hs]
    have hs1 : s = 1 := le_antisymm h1 (not_lt.mp hs)
    rw [hs1, one_mul] at h2
    exact ⟨hw, hh, by exact_mod_cast h2⟩

/-- All picks produced by the outer loop keep both dimensions at least 1 and
the longer side at most `maxDim`, given the scale invariant at entry. -/
theorem compressLoop_dims (jp : JpegEnc) (tKb minDim w h maxDim : Nat)
    (hw : 1 ≤ w) (hh : 1 ≤ h) (hm : 1 ≤ maxDim) :
    ∀ fuel (s : ℚ) r, 0 ≤ s → s ≤ 1 → s * ((max w h : Nat) : ℚ) ≤ (maxDim : ℚ) →
      compressLoop jp tKb minDim w h fuel s = some r →
      1 ≤ r.usedW ∧ 1 ≤ r.usedH ∧ max r.usedW r.usedH ≤ maxDim := by
  intro fuel
  induction fuel with
  | zero => intro s r _ _ _ hcl; cases hcl
  | succ f ih =>
    intro s r h0 h1 h2 hcl
    rw [compressLoop] at hcl
    dsimp only at hcl
    obtain ⟨b1, b2, b3⟩ := workDims_bounds w h maxDim s hw hh hm h0 h1 h2
    cases hbs : binSearch jp (workDims w h s).1 (workDims w h s).2 tKb 87 10 95 none with
    | none => rw [hbs] at hcl; cases hcl
    | some b =>
      rw [hbs] at hcl
      cases b with
      | some p =>
        obtain ⟨data, q⟩ := p
        dsimp only at hcl
        cases hcl
        exact ⟨b1, b2, b3⟩
      | none =>
        dsimp only at hcl
        split at hcl
        · cases hcl
          exact ⟨b1, b2, b3⟩
        · refine ih (s * (0.85 : ℚ)) r (mul_nonneg h0 (by norm_num)) ?_ ?_ hcl
          · calc s * (0.85 : ℚ) ≤ 1 * (0.85 : ℚ) :=
                  mul_le_mul_of_nonneg_right h1 (by norm_num)
              _ ≤ 1 := by norm_num
          · calc s * (0.85 : ℚ) * ((max w h : Nat) : ℚ)
                = s * ((max w h : Nat) : ℚ) * (0.85 : ℚ) := by ring
              _ ≤ (maxDim : ℚ) * (0.85 : ℚ) :=
                  mul_le_mul_of_nonneg_right h2 (by norm_num)
              _ ≤ (maxDim : ℚ) := mul_le_of_le_one_right (by positivity) (by norm_num)

/-- C9: on every return path (binary-search success or fallback), the bytes
`compress_to_jpeg` returns were encoded from a working image whose longer
side is at most `max_dim` and whose dimensions are both at least 1 —
assuming the external encoder never produces empty output (so the line 105
raw path is unreachable). -/
theorem C9_dimension_bound (jp : JpegEnc) (raw : Bytes) (targetKb maxDim w h : Nat)
    (r : CompressResult) (hjp : ∀ a b q, jp a b q ≠ ([] : Bytes))
    (hw : 1 ≤ w) (hh : 1 ≤ h) (hm : 1 ≤ maxDim)
    (hres : compress_to_jpeg jp raw targetKb maxDim w h = some r) :
    r.bytes = jp r.usedW r.usedH r.usedQ ∧
    1 ≤ r.usedW ∧ 1 ≤ r.usedH ∧ max r.usedW r.usedH ≤ maxDim := by
  unfold compress_to_jpeg at hres
  cases hL : compressLoop jp targetKb 320 w h 11 (initialScale w h maxDim) with
  | none => rw [hL] at hres; cases hres
  | some p =>
    rw [hL] at hres
    dsimp only at hres
    have hlink := compressLoop_link jp targetKb 320 w h 11 _ p hL
    have hdims := compressLoop_dims jp targetKb 320 w h maxDim hw hh hm 11 _ p
      (initialScale_nonneg w h maxDim) (initialScale_le_one w h maxDim)
      (initialScale_mul_le w h maxDim hw) hL
    have hb : p.bytes ≠ [] := by
      rw [hlink]
      exact hjp _ _ _
    rw [if_pos hb] at hres
    cases hres
    exact ⟨hlink, hdims⟩

/-- Evaluation of the embedded `compress_to_jpeg` on a constant one-byte
encoder: used by witnesses needing a concrete successful run with a
never-empty encoder. -/
theorem compressEval_const :
    compress_to_jpeg (fun _ _ _ => [0]) [] 1 1600 1 1 =
      some ⟨[0], "image/jpeg", false, 1, 1, 10⟩ := by
  have h0 : initialScale 1 1 1600 = 1 := by unfold initialScale; norm_num
  have h1 : workDims 1 1 1 = (1, 1) := by unfold workDims; norm_num
  have h2 : binSearch (fun _ _ _ => [0]) 1 1 1 87 10 95 none =
      some (some ([0], 10)) := by decide
  have h3 : compressLoop (fun _ _ _ => [0]) 1 320 1 1 11 1 = some ⟨[0], 1, 1, 10⟩ := by
    show compressLoop (fun _ _ _ => [0]) 1 320 1 1 (10 + 1) 1 = _
    rw [compressLoop, h1, h2]
  unfold compress_to_jpeg
  rw [h0, h3]
  decide

/-- Witness for C9 on the constant encoder run. -/
theorem C9_dimension_bound_witness :
    (⟨[0], "image/jpeg", false, 1, 1, 10⟩ : CompressResult).bytes =
      (fun _ _ _ => ([0] : Bytes)) 1 1 10 ∧
    1 ≤ (⟨[0], "image/jpeg", false, 1, 1, 10⟩ : CompressResult).usedW ∧
    1 ≤ (⟨[0], "image/jpeg", false, 1, 1, 10⟩ : CompressResult).usedH ∧
    max (⟨[0], "image/jpeg", false, 1, 1, 10⟩ : CompressResult).usedW
      (⟨[0], "image/jpeg", false, 1, 1, 10⟩ : CompressResult).usedH ≤ 1600 :=
  C9_dimension_bound (fun _ _ _ => [0]) [] 1 1600 1 1 _
    (fun a b q => by simp) (by decide) (by decide) (by decide) compressEval_const

/-- When no quality in [10, 95] meets the budget, the binary search finishes
with its candidate unchanged (`local_best` stays `None` when started there). -/
theorem binSearch_all_over (jp : JpegEnc) (ww wh t : Nat)
    (hall : ∀ q, 10 ≤ q → q ≤ 95 → t * 1024 < (jp ww wh q).length) :
    ∀ fuel lo hi best, 10 ≤ lo → hi ≤ 95 → hi + 1 - lo < fuel →
      binSearch jp ww wh t fuel lo hi best = some best := by
  intro fuel
  induction fuel with
  | zero => intro lo hi best h1 h2 h3; omega
  | succ f ih =>
    intro lo hi best h1 h2 h3
    rw [binSearch]
    by_cases hle : lo ≤ hi
    · rw [if_pos hle]
      dsimp only
      have hq := hall ((lo + hi) / 2) (by omega) (by omega)
      rw [if_neg (by omega)]
      exact ih ((lo + hi) / 2 + 1) hi best (by omega) h2 (by omega)
    · rw [if_neg hle]

/-- C3: if at the current scale no quality in [10, 95] meets the budget and
the stopping test of line 95 holds (the working image's longer side is at
most 320, or the 0.85-updated scale is at most 0.2), the loop stops
searching and returns the quality-10 encoding of the current working image
— regardless of whether it meets the budget and without failing; and at the
initial scale, `compress_to_jpeg` returns exactly that fallback with mime
image/jpeg, with the line 103 warning emitted iff the fallback still
exceeds `target_kb`. -/
theorem C3_fallback_quality10 (jp : JpegEnc) (raw : Bytes)
    (targetKb maxDim w h ww wh fuel : Nat) (s : ℚ)
    (hwd : workDims w h s = (ww, wh))
    (hall : ∀ q, 10 ≤ q → q ≤ 95 → targetKb * 1024 < (jp ww wh q).length)
    (hstop : max ww wh ≤ 320 ∨ s * (0.85 : ℚ) ≤ (0.2 : ℚ))
    (hne : jp ww wh 10 ≠ ([] : Bytes)) :
    compressLoop jp targetKb 320 w h (fuel + 1) s = some ⟨jp ww wh 10, ww, wh, 10⟩ ∧
    (s = initialScale w h maxDim →
      ∃ r, compress_to_jpeg jp raw targetKb maxDim w h = some r ∧
        r.bytes = jp ww wh 10 ∧ r.usedQ = 10 ∧ r.mime = "image/jpeg" ∧
        (r.warned = true ↔ targetKb * 1024 < (jp ww wh 10).length)) := by
  have hloop : ∀ f2, compressLoop jp targetKb 320 w h (f2 + 1) s =
      some ⟨jp ww wh 10, ww, wh, 10⟩ := by
    intro f2
    rw [compressLoop]
    dsimp only
    rw [hwd]
    dsimp only
    rw [binSearch_all_over jp ww wh targetKb hall 87 10 95 none (by omega) (by omega)
      (by omega)]
    dsimp only
    rw [if_pos hstop]
  refine ⟨hloop fuel, ?_⟩
  intro hs
  have h11 : compressLoop jp targetKb 320 w h 11 (initialScale w h maxDim) =
      some ⟨jp ww wh 10, ww, wh, 10⟩ := by
    rw [← hs]
    exact hloop 10
  unfold compress_to_jpeg
  rw [h11]
  dsimp only
  rw [if_pos hne]
  refine ⟨⟨jp ww wh 10, "image/jpeg", decide (targetKb * 1024 < (jp ww wh 10).length),
    ww, wh, 10⟩, rfl, rfl, rfl, rfl, ?_⟩
  simp

/-- Witness for C3: a constant 1030-byte encoder cannot meet a 1 KB budget at
any quality, and a 1 times 1 working image triggers the 320 px stop at once. -/
theorem C3_fallback_quality10_witness :
    compressLoop (fun _ _ _ => List.replicate 1030 0) 1 320 1 1 (0 + 1)
        (initialScale 1 1 1600) =
      some ⟨(fun _ _ _ => List.replicate 1030 0) 1 1 10, 1, 1, 10⟩ ∧
    ∃ r, compress_to_jpeg (fun _ _ _ => List.replicate 1030 0) [] 1 1600 1 1 = some r ∧
      r.bytes = (fun _ _ _ => List.replicate 1030 0) 1 1 10 ∧ r.usedQ = 10 ∧
      r.mime = "image/jpeg" ∧
      (r.warned = true ↔ 1 * 1024 < ((fun _ _ _ => List.replicate 1030 (0 : Nat)) 1 1 10).length) := by
  have hT := C3_fallback_quality10 (fun _ _ _ => List.replicate 1030 0) [] 1 1600 1 1 1 1 0
    (initialScale 1 1 1600)
    (by have h0 : initialScale 1 1 1600 = 1 := by unfold initialScale; norm_num
        rw [h0]; unfold workDims; norm_num)
    (by intro q h1 h2
        show (1 : Nat) * 1024 < (List.replicate 1030 (0 : Nat)).length
        rw [List.length_replicate]
        omega)
    (Or.inl (by decide))
    (by show List.replicate 1030 (0 : Nat) ≠ []
        intro heq
        have hlen := congrArg List.length heq
        rw [List.length_replicate] at hlen
        exact absurd hlen (by norm_num))
  exact ⟨hT.1, hT.2 rfl⟩

/-! Embedding of local/gen_quiz_images.py: the markdown image scanner
(extract_markdown_images), the dedup of extract_front, and the per-card
batch loop of main.  Python text is a list of characters. -/

/-- Python str.strip() with no argument: drop whitespace from both ends. -/
def pyStrip (s : List Char) : List Char :=
  ((s.dropWhile Char.isWhitespace).reverse.dropWhile Char.isWhitespace).reverse

/-- Step function for Python `text.find(pat, j)`: try indices from `j` up. -/
def pyFindAux (t pat : List Char) : Nat → Nat → Option Nat
  | 0, _ => none
  | f + 1, j =>
    if t.length < j + pat.length then none
    else if (t.drop j).take pat.length = pat then some j
    else pyFindAux t pat f (j + 1)

/-- Python `text.find(pat, start)`: least index at or after `start` where
`pat` occurs (`none` for Python's -1).  The fuel `t.length + 1` covers every
index the scan can visit. -/
def pyFind (t pat : List Char) (start : Nat) : Option Nat :=
  pyFindAux t pat (t.length + 1) start

/-- Python slice `t[a:b]` for natural bounds. -/
def pySlice (t : List Char) (a b : Nat) : List Char := (t.drop a).take (b - a)

/-- Python `s or None` on an (already stripped) string: empty becomes None. -/
def pyOptStr (s : List Char) : Option (List Char) :=
  if s = [] then none else some s

/-- Body of the `while i < len(text)` scanner of extract_markdown_images
(gen_quiz_images.py lines 27-51), with the loop as fuel recursion on `i`.
Each iteration advances `i` by at least 3, so the wrapper's fuel
`t.length + 1` is never exhausted. -/
def extractAux (t : List Char) : Nat → Nat → List (Option (List Char) × Option (List Char))
  | 0, _ => []
  | f + 1, i =>
    if i < t.length then
      match pyFind t (['!', '[']) i with
      | none => []
      | some bang =>
        match pyFind t ([']']) (bang + 2) with
        | none => []
        | some cb =>
          let altText := pyStrip (pySlice t (bang + 2) cb)
          if cb + 1 < t.length ∧ t.get? (cb + 1) = some '(' then
            match pyFind t ([')']) (cb + 2) with
            | some cp =>
              (pyOptStr altText, pyOptStr (pyStrip (pySlice t (cb + 2) cp))) ::
                extractAux t f (cp + 1)
            | none =>
              (pyOptStr altText, none) :: extractAux t f (cb + 2)
          else
            (pyOptStr altText, none) :: extractAux t f (cb + 1)
    else []

/-- extract_markdown_images, gen_quiz_images.py lines 21-51. -/
def extract_markdown_images (t : List Char) :
    List (Option (List Char) × Option (List Char)) :=
  extractAux t (t.length + 1) 0

/-- Dedup key of extract_front line 77: `(info[0] or "", info[1] or "")`. -/
def dedupKey (info : Option (List Char) × Option (List Char)) :
    List Char × List Char :=
  (info.1.getD [], info.2.getD [])

/-- The seen-set dedup loop of extract_front (lines 74-80), the set being the
list of keys added so far. -/
def dedupInfos (seen : List (List Char × List Char)) :
    List (Option (List Char) × Option (List Char)) →
    List (Option (List Char) × Option (List Char))
  | [] => []
  | info :: rest =>
    if dedupKey info ∈ seen then dedupInfos seen rest
    else info :: dedupInfos (dedupKey info :: seen) rest

/-- extract_front, gen_quiz_images.py lines 54-81.  `jsonPrompt` is the
oracle for the json.loads branch of lines 63-69: `some p` when `front_raw`
parses as a JSON dict, where `p` models `str(parsed.get("prompt") or "")`
(possibly empty); `none` when parsing fails or yields a non-dict. -/
def extract_front (jsonPrompt : List Char → Option (List Char))
    (front_raw : List Char) :
    List Char × List (Option (List Char) × Option (List Char)) :=
  if front_raw = [] then (front_raw, [])
  else
    let prompt_text := match jsonPrompt front_raw with
      | some p => p
      | none => front_raw
    let image_infos :=
      if prompt_text ≠ [] then extract_markdown_images prompt_text else []
    (prompt_text, dedupInfos [] image_infos)

theorem pyOptStr_ne_some_nil (s : List Char) : pyOptStr s ≠ some [] := by
  unfold pyOptStr
  split
  · simp
  · intro hcontra
    injection hcontra with hs
    exact absurd hs (by assumption)

/-- Every pair the scanner emits has its components normalized: an empty alt
or url never appears as `some []`. -/
theorem extractAux_no_empty (t : List Char) :
    ∀ fuel i p, p ∈ extractAux t fuel i → p.1 ≠ some [] ∧ p.2 ≠ some [] := by
  intro fuel
  induction fuel with
  | zero => intro i p hp; cases hp
  | succ f ih =>
    intro i p hp
    rw [extractAux] at hp
    split at hp
    · split at hp
      · cases hp
      · split at hp
        · cases hp
        · split at hp
          · split at hp
            · rcases List.mem_cons.mp hp with hhd | htl
              · subst hhd
                exact ⟨pyOptStr_ne_some_nil _, pyOptStr_ne_some_nil _⟩
              · exact ih _ p htl
            · rcases List.mem_cons.mp hp with hhd | htl
              · subst hhd
                exact ⟨pyOptStr_ne_some_nil _, by simp⟩
              · exact ih _ p htl
          · rcases List.mem_cons.mp hp with hhd | htl
            · subst hhd
              exact ⟨pyOptStr_ne_some_nil _, by simp⟩
            · exact ih _ p htl
    · cases hp

theorem dedupInfos_not_seen :
    ∀ (l : List (Option (List Char) × Option (List Char))) seen y,
      y ∈ dedupInfos seen l → dedupKey y ∉ seen := by
  intro l
  induction l with
  | nil => intro seen y hy; cases hy
  | cons info rest ih =>
    intro seen y hy
    rw [dedupInfos] at hy
    split at hy
    · exact ih seen y hy
    · rcases List.mem_cons.mp hy with hhd | htl
      · subst hhd
        assumption
      · have := ih _ y htl
        intro hcontra
        exact this (List.mem_cons_of_mem _ hcontra)

theorem dedupInfos_pairwise :
    ∀ (l : List (Option (List Char) × Option (List Char))) seen,
      List.Pairwise (fun a b => dedupKey a ≠ dedupKey b) (dedupInfos seen l) := by
  intro l
  induction l with
  | nil => intro seen; exact List.Pairwise.nil
  | cons info rest ih =>
    intro seen
    rw [dedupInfos]
    split
    · exact ih seen
    · refine List.Pairwise.cons ?_ (ih _)
      intro y hy hcontra
      have := dedupInfos_not_seen rest _ y hy
      exact this (by rw [← hcontra]; exact List.mem_cons_self _ _)

theorem dedupInfos_sublist :
    ∀ (l : List (Option (List Char) × Option (List Char))) seen,
      (dedupInfos seen l).Sublist l := by
  intro l
  induction l with
  | nil => intro seen; rw [dedupInfos]
  | cons info rest ih =>
    intro seen
    rw [dedupInfos]
    split
    · exact (ih seen).cons info
    · exact (ih _).cons₂ info

theorem dedupInfos_complete :
    ∀ (l : List (Option (List Char) × Option (List Char))) seen x, x ∈ l →
      dedupKey x ∈ seen ∨ ∃ y, y ∈ dedupInfos seen l ∧ dedupKey y = dedupKey x := by
  intro l
  induction l with
  | nil => intro seen x hx; cases hx
  | cons info rest ih =>
    intro seen x hx
    rw [dedupInfos]
    rcases List.mem_cons.mp hx with hhd | htl
    · subst hhd
      split
      · exact Or.inl (by assumption)
      · exact Or.inr ⟨x, List.mem_cons_self _ _, rfl⟩
    · split
      · exact ih seen x htl
      · rcases ih (dedupKey info :: seen) x htl with hseen | ⟨y, hy, hk⟩
        · rcases List.mem_cons.mp hseen with heq | hin
          · exact Or.inr ⟨info, List.mem_cons_self _ _, heq.symm⟩
          · exact Or.inl hin
        · exact Or.inr ⟨y, List.mem_cons_of_mem _ hy, hk⟩

/-- C10: the list extract_front returns never holds two entries with the
same `(alt or "", url or "")` key; it is a sublist (hence in scan order) of
the scanner's output on the prompt text it returns; every scanned entry's
key is still represented (so the retained entry is its key's first
occurrence, keys being injective on scanned entries by the normalization
part); and the scanner itself never emits an empty-string alt or url —
empty components are normalized to None by the `or None` of line 50. -/
theorem C10_dedup_and_normalization :
    (∀ t p, p ∈ extract_markdown_images t → p.1 ≠ some [] ∧ p.2 ≠ some []) ∧
    (∀ jsonO front, List.Pairwise (fun a b => dedupKey a ≠ dedupKey b)
      (extract_front jsonO front).2) ∧
    (∀ jsonO front, (extract_front jsonO front).2.Sublist
      (extract_markdown_images (extract_front jsonO front).1)) ∧
    (∀ jsonO front x, x ∈ extract_markdown_images (extract_front jsonO front).1 →
      ∃ y, y ∈ (extract_front jsonO front).2 ∧ dedupKey y = dedupKey x) := by
  refine ⟨fun t p hp => extractAux_no_empty t _ 0 p hp, ?_, ?_, ?_⟩
  · intro jsonO front
    unfold extract_front
    split
    · exact List.Pairwise.nil
    · exact dedupInfos_pairwise _ []
  · intro jsonO front
    unfold extract_front
    split
    · exact List.nil_sublist _
    · dsimp only
      generalize (match jsonO front with | some p => p | none => front) = pt
      by_cases hpt : pt ≠ []
      · rw [if_pos hpt]
        exact dedupInfos_sublist _ []
      · rw [if_neg hpt]
        exact List.nil_sublist _
  · intro jsonO front x
    unfold extract_front
    split
    · rename_i hfr
      rw [hfr]
      intro hx
      rw [show extract_markdown_images [] = [] from rfl] at hx
      cases hx
    · dsimp only
      generalize (match jsonO front with | some p => p | none => front) = pt
      by_cases hpt : pt ≠ []
      · rw [if_pos hpt]
        intro hx
        rcases dedupInfos_complete _ [] x hx with hseen | hy
        · cases hseen
        · exact hy
      · rw [if_neg hpt]
        have hpt2 : pt = [] := not_ne_iff.mp hpt
        rw [hpt2]
        intro hx
        rw [show extract_markdown_images [] = [] from rfl] at hx
        cases hx

/-- Witness for C10 on the scan of a concrete markdown image tag. -/
theorem C10_dedup_and_normalization_witness :
    ((some (['a']), some (['u'])) :
        Option (List Char) × Option (List Char)).1 ≠ some [] ∧
    ((some (['a']), some (['u'])) :
        Option (List Char) × Option (List Char)).2 ≠ some [] :=
  C10_dedup_and_normalization.1 ("![a](u)".toList) (some (['a']), some (['u']))
    (by decide)

/-! The per-card image loop of gen_quiz_images.py main (lines 111-143) and
upload_to_storage of quizit_storage.py (lines 40-68), with external effects
as oracles. -/

/-- One card row as the loop reads it: record id and front text. -/
structure CardRec where
  id : List Char
  front : List Char

/-- Per-item outcome of the loop body, gen_quiz_images.py lines 124-140. -/
inductive ItemOutcome
  | cached (bytes : Bytes)
  | generated (bytes : Bytes) (mime : String)
  | genFailed (err : List Char)
  | skipped
deriving DecidableEq

/-- Observable record of one loop-body run: the card id and 1-based image
index identify the item; `genCalled` records whether generate_image_bytes
was invoked, `wroteCache` what was written to the cache file, and
`uploaded` the (bytes, mime) arguments upload_to_storage was called with
(`none` when the iteration was continue-d before the upload of line 142). -/
structure ItemResult where
  cid : List Char
  idx : Nat
  outcome : ItemOutcome
  genCalled : Bool
  wroteCache : Option Bytes
  uploaded : Option (Bytes × String)
deriving DecidableEq

/-- Python `desc = alt or prompt_text or "image"` of line 118. -/
def itemDesc (alt : Option (List Char)) (promptText : List Char) : List Char :=
  match alt with
  | some a =>
    if a ≠ [] then a
    else if promptText ≠ [] then promptText else ("image".toList)
  | none => if promptText ≠ [] then promptText else ("image".toList)

/-- Cache-file oracle: the bytes at the deterministic path
`tmp/quiz_images_cache/{cid}-front{idx}.jpg` (so keyed by (cid, idx)), or
`none` when the file does not exist. -/
abbrev CacheOracle := List Char → Nat → Option Bytes

/-- Generation oracle: the outcome of the generate_image_bytes call made for
item (cid, idx) with the given desc — bytes and mime on success, the caught
RuntimeError message on failure. -/
abbrev GenOracle := List Char → Nat → List Char → Except (List Char) (Bytes × String)

/-- Loop body for one `(idx, (alt, url))` item of a card, lines 117-143:
cache hit reads the file and uploads it with the initial mime image/jpeg
(lines 125-129, 142); cache miss with --doit calls the generator, writes the
cache file and uploads on success, or logs and continues on RuntimeError
(lines 130-137); cache miss without --doit skips (lines 138-140). -/
def processItem (cache : CacheOracle) (genO : GenOracle) (doit : Bool)
    (promptText : List Char) (cid : List Char) (idx : Nat)
    (alt : Option (List Char)) : ItemResult :=
  let desc := itemDesc alt promptText
  match cache cid idx with
  | some b => ⟨cid, idx, .cached b, false, none, some (b, "image/jpeg")⟩
  | none =>
    if doit then
      match genO cid idx desc with
      | .ok (b, m) => ⟨cid, idx, .generated b m, true, some b, some (b, m)⟩
      | .error e => ⟨cid, idx, .genFailed e, true, none, none⟩
    else ⟨cid, idx, .skipped, false, none, none⟩

/-- The `for idx, (alt, url) in enumerate(infos, start=1)` loop of line 117. -/
def processInfos (cache : CacheOracle) (genO : GenOracle) (doit : Bool)
    (promptText : List Char) (cid : List Char) :
    Nat → List (Option (List Char) × Option (List Char)) → List ItemResult
  | _, [] => []
  | idx, info :: rest =>
    processItem cache genO doit promptText cid idx info.1 ::
      processInfos cache genO doit promptText cid (idx + 1) rest

/-- The outer `for card in cards` loop of line 111; a card whose front has
no image infos contributes no items (the `if infos` of line 114). -/
def processCards (cache : CacheOracle) (genO : GenOracle) (doit : Bool)
    (jsonO : List Char → Option (List Char)) : List CardRec → List ItemResult
  | [] => []
  | c :: cs =>
    processInfos cache genO doit (extract_front jsonO c.front).1 c.id 1
        (extract_front jsonO c.front).2 ++
      processCards cache genO doit jsonO cs

/-- Python `filename.endswith(pat)`. -/
def listEndsWith (s pat : List Char) : Bool :=
  (pat.length ≤ s.length) && ((s.drop (s.length - pat.length)) == pat)

/-- Content-type defaulting of quizit_storage.py lines 49-51. -/
def resolveContentType (filename : List Char) (contentType : Option String) : String :=
  let ct0 := contentType.getD ""
  if ct0 ≠ "" then ct0
  else if listEndsWith filename (".dot".toList) then "text/dot"
  else "application/octet-stream"

/-- upload_to_storage, quizit_storage.py lines 40-68.  The whole try body —
client creation, the storage upload call, and the result-shape probing of
lines 60-65 — is the oracle `uploadO`, a function of the object path
`{card_id}/{filename}`, the uploaded bytes and the resolved content type;
`.error` models any exception the `except Exception` arm catches, in which
case the function logs and returns None (lines 66-68). -/
def upload_to_storage (uploadO : List Char → Bytes → String → Except (List Char) (List Char))
    (cardId : List Char) (content : Bytes) (filename : List Char)
    (contentType : Option String) : Option (List Char) :=
  match uploadO (cardId ++ ('/' :: filename)) content (resolveContentType filename contentType) with
  | .ok p => some p
  | .error _ => none

theorem processItem_cid (cache : CacheOracle) (genO : GenOracle) (doit : Bool)
    (pt cid : List Char) (idx : Nat) (alt : Option (List Char)) :
    (processItem cache genO doit pt cid idx alt).cid = cid := by
  unfold processItem
  dsimp only
  split
  · rfl
  · split
    · split
      · rfl
      · rfl
    · rfl

theorem processItem_idx (cache : CacheOracle) (genO : GenOracle) (doit : Bool)
    (pt cid : List Char) (idx : Nat) (alt : Option (List Char)) :
    (processItem cache genO doit pt cid idx alt).idx = idx := by
  unfold processItem
  dsimp only
  split
  · rfl
  · split
    · split
      · rfl
      · rfl
    · rfl

/-- The loop body consults the generation oracle only at its own item. -/
theorem processItem_congr (cache : CacheOracle) (g1 g2 : GenOracle) (doit : Bool)
    (pt cid : List Char) (idx : Nat) (alt : Option (List Char))
    (hg : g1 cid idx (itemDesc alt pt) = g2 cid idx (itemDesc alt pt)) :
    processItem cache g1 doit pt cid idx alt = processItem cache g2 doit pt cid idx alt := by
  unfold processItem
  dsimp only
  rw [hg]

/-- C8: cache discipline of the loop body.  A cache hit is used as the
item's bytes and uploaded with the initial mime image/jpeg, without calling
the generation API; a cache miss with --doit calls the API and, on success,
writes the bytes to the cache path and uploads them; a cache miss without
--doit skips the item with no generation call and no upload. -/
theorem C8_cache_discipline (cache : CacheOracle) (genO : GenOracle) (doit : Bool)
    (pt cid : List Char) (idx : Nat) (alt : Option (List Char)) :
    (∀ b, cache cid idx = some b →
      processItem cache genO doit pt cid idx alt =
        ⟨cid, idx, .cached b, false, none, some (b, "image/jpeg")⟩) ∧
    (cache cid idx = none → doit = true →
      (processItem cache genO doit pt cid idx alt).genCalled = true ∧
      ∀ b m, genO cid idx (itemDesc alt pt) = .ok (b, m) →
        processItem cache genO doit pt cid idx alt =
          ⟨cid, idx, .generated b m, true, some b, some (b, m)⟩) ∧
    (cache cid idx = none → doit = false →
      processItem cache genO doit pt cid idx alt =
        ⟨cid, idx, .skipped, false, none, none⟩) := by
  refine ⟨?_, ?_, ?_⟩
  · intro b hb
    unfold processItem
    dsimp only
    rw [hb]
  · intro hc hd
    subst hd
    unfold processItem
    dsimp only
    rw [hc, if_pos rfl]
    refine ⟨?_, ?_⟩
    · cases hgen : genO cid idx (itemDesc alt pt) with
      | ok p =>
        obtain ⟨b, m⟩ := p
        rfl
      | error e => rfl
    · intro b m hok
      rw [hok]
  · intro hc hd
    subst hd
    unfold processItem
    dsimp only
    rw [hc, if_neg (by simp)]

/-- Witness for C8: the three cases at concrete oracles. -/
theorem C8_cache_discipline_witness :
    processItem (fun _ _ => some [5]) (fun _ _ _ => Except.ok ([1], "x")) true []
        (['c']) 1 none =
      ⟨['c'], 1, .cached [5], false, none, some ([5], "image/jpeg")⟩ ∧
    ((processItem (fun _ _ => none) (fun _ _ _ => Except.ok ([1], "x")) true []
        (['c']) 1 none).genCalled = true ∧
      ∀ b m, (fun _ _ _ => (Except.ok ([1], "x") : Except (List Char) (Bytes × String)))
          (['c']) 1 (itemDesc none []) = Except.ok (b, m) →
        processItem (fun _ _ => none) (fun _ _ _ => Except.ok ([1], "x")) true []
            (['c']) 1 none =
          ⟨['c'], 1, .generated b m, true, some b, some (b, m)⟩) ∧
    processItem (fun _ _ => none) (fun _ _ _ => Except.ok ([1], "x")) false []
        (['c']) 1 none =
      ⟨['c'], 1, .skipped, false, none, none⟩ :=
  ⟨(C8_cache_discipline (fun _ _ => some [5]) (fun _ _ _ => Except.ok ([1], "x")) true []
      (['c']) 1 none).1 [5] rfl,
   (C8_cache_discipline (fun _ _ => none) (fun _ _ _ => Except.ok ([1], "x")) true []
      (['c']) 1 none).2.1 rfl rfl,
   (C8_cache_discipline (fun _ _ => none) (fun _ _ _ => Except.ok ([1], "x")) false []
      (['c']) 1 none).2.2 rfl rfl⟩

/-- Alignment relation for C6: paired results belong to the same item, and
items other than the failing one have identical results. -/
def isoRel (c0 : List Char) (i0 : Nat) (r1 r2 : ItemResult) : Prop :=
  r1.cid = r2.cid ∧ r1.idx = r2.idx ∧ (¬(r1.cid = c0 ∧ r1.idx = i0) → r1 = r2)

theorem processInfos_isolated (cache : CacheOracle) (g1 g2 : GenOracle) (doit : Bool)
    (pt cid c0 : List Char) (i0 : Nat)
    (hag : ∀ c i d, ¬(c = c0 ∧ i = i0) → g1 c i d = g2 c i d) :
    ∀ idx infos, List.Forall₂ (isoRel c0 i0)
      (processInfos cache g1 doit pt cid idx infos)
      (processInfos cache g2 doit pt cid idx infos) := by
  intro idx infos
  induction infos generalizing idx with
  | nil => exact List.Forall₂.nil
  | cons info rest ih =>
    rw [processInfos, processInfos]
    refine List.Forall₂.cons ?_ (ih (idx + 1))
    refine ⟨by rw [processItem_cid, processItem_cid],
      by rw [processItem_idx, processItem_idx], ?_⟩
    intro hne
    rw [processItem_cid, processItem_idx] at hne
    exact processItem_congr cache g1 g2 doit pt cid idx info.1 (hag cid idx _ hne)

theorem processCards_isolated (cache : CacheOracle) (g1 g2 : GenOracle) (doit : Bool)
    (jsonO : List Char → Option (List Char)) (c0 : List Char) (i0 : Nat)
    (hag : ∀ c i d, ¬(c = c0 ∧ i = i0) → g1 c i d = g2 c i d) :
    ∀ cards, List.Forall₂ (isoRel c0 i0)
      (processCards cache g1 doit jsonO cards)
      (processCards cache g2 doit jsonO cards) := by
  intro cards
  induction cards with
  | nil => exact List.Forall₂.nil
  | cons c cs ih =>
    rw [processCards, processCards]
    exact List.rel_append (processInfos_isolated cache g1 g2 doit _ c.id c0 i0 hag 1 _) ih

/-- Every batch result is the loop body's value at some item. -/
theorem processCards_shape (cache : CacheOracle) (genO : GenOracle) (doit : Bool)
    (jsonO : List Char → Option (List Char)) :
    ∀ cards r, r ∈ processCards cache genO doit jsonO cards →
      ∃ pt cid j alt, r = processItem cache genO doit pt cid j alt := by
  have hinfos : ∀ (pt cid : List Char) idx infos r,
      r ∈ processInfos cache genO doit pt cid idx infos →
      ∃ j alt, r = processItem cache genO doit pt cid j alt := by
    intro pt cid idx infos
    induction infos generalizing idx with
    | nil => intro r hr; cases hr
    | cons info rest ih =>
      intro r hr
      rw [processInfos] at hr
      rcases List.mem_cons.mp hr with hhd | htl
      · exact ⟨idx, info.1, hhd⟩
      · exact ih (idx + 1) r htl
  intro cards
  induction cards with
  | nil => intro r hr; cases hr
  | cons c cs ih =>
    intro r hr
    rw [processCards] at hr
    rcases List.mem_append.mp hr with hl | hrr
    · obtain ⟨j, alt, heq⟩ := hinfos (extract_front jsonO c.front).1 c.id 1 _ r hl
      exact ⟨(extract_front jsonO c.front).1, c.id, j, alt, heq⟩
    · exact ih r hrr

/-- C6: per-item failure isolation in the batch.  With two generation
oracles that differ only at one item (c0, i0), the batches align item by
item and agree everywhere except possibly that item — one item's API
failure neither aborts the loop nor changes any other item's result; the
failing item itself (when its cache misses and --doit is on) ends as a
genFailed record with nothing written and nothing uploaded; and a
storage-upload failure is caught inside upload_to_storage, which returns
None. -/
theorem C6_failure_isolation (cache : CacheOracle) (g1 g2 : GenOracle) (doit : Bool)
    (jsonO : List Char → Option (List Char)) (cards : List CardRec)
    (c0 : List Char) (i0 : Nat) (e : List Char)
    (hag : ∀ c i d, ¬(c = c0 ∧ i = i0) → g1 c i d = g2 c i d)
    (hfail : ∀ d, g2 c0 i0 d = .error e) :
    List.Forall₂ (isoRel c0 i0)
      (processCards cache g1 doit jsonO cards)
      (processCards cache g2 doit jsonO cards) ∧
    (∀ r, r ∈ processCards cache g2 doit jsonO cards → r.cid = c0 → r.idx = i0 →
      cache c0 i0 = none → doit = true →
      r.outcome = .genFailed e ∧ r.uploaded = none ∧ r.wroteCache = none) ∧
    (∀ (uploadO : List Char → Bytes → String → Except (List Char) (List Char))
      (cardId : List Char) (content : Bytes) (filename : List Char)
      (ct : Option String) (e2 : List Char),
      uploadO (cardId ++ ('/' :: filename)) content (resolveContentType filename ct) =
        .error e2 →
      upload_to_storage uploadO cardId content filename ct = none) := by
  refine ⟨processCards_isolated cache g1 g2 doit jsonO c0 i0 hag cards, ?_, ?_⟩
  · intro r hr hcid hidx hcache hdoit
    obtain ⟨pt, cid, j, alt, rfl⟩ := processCards_shape cache g2 doit jsonO cards r hr
    rw [processItem_cid] at hcid
    rw [processItem_idx] at hidx
    subst hcid
    subst hidx
    subst hdoit
    unfold processItem
    dsimp only
    rw [hcache, if_pos rfl, hfail (itemDesc alt pt)]
    exact ⟨rfl, rfl, rfl⟩
  · intro uploadO cardId content filename ct e2 hup
    unfold upload_to_storage
    rw [hup]

/-- Concrete oracles for the C6 witness. -/
def wCache : CacheOracle := fun _ _ => none

def wG1 : GenOracle := fun _ _ _ => Except.ok ([1], "image/jpeg")

def wG2 : GenOracle := fun c i _ =>
  if c = ['a'] ∧ i = 1 then Except.error (['E']) else Except.ok ([1], "image/jpeg")

def wCards : List CardRec := [⟨['a'], "![x]".toList⟩, ⟨['b'], "![y]".toList⟩]

/-- Witness for C6: a two-card batch whose first item's generation fails. -/
theorem C6_failure_isolation_witness :
    List.Forall₂ (isoRel (['a']) 1)
      (processCards wCache wG1 true (fun _ => none) wCards)
      (processCards wCache wG2 true (fun _ => none) wCards) ∧
    (∀ r, r ∈ processCards wCache wG2 true (fun _ => none) wCards → r.cid = ['a'] →
      r.idx = 1 → wCache (['a']) 1 = none → true = true →
      r.outcome = .genFailed (['E']) ∧ r.uploaded = none ∧ r.wroteCache = none) ∧
    (∀ (uploadO : List Char → Bytes → String → Except (List Char) (List Char))
      (cardId : List Char) (content : Bytes) (filename : List Char)
      (ct : Option String) (e2 : List Char),
      uploadO (cardId ++ ('/' :: filename)) content (resolveContentType filename ct) =
        .error e2 →
      upload_to_storage uploadO cardId content filename ct = none) :=
  C6_failure_isolation wCache wG1 wG2 true (fun _ => none) wCards (['a']) 1 (['E'])
    (by intro c i d h
        simp only [wG1, wG2]
        rw [if_neg h])
    (by intro d
        simp [wG2])

/-! Embedding of the credential loaders: load_google_api_key of gen_image.py
(lines 31-42), get_sp_client of quizit_storage.py (lines 17-37 with
load_env), and load_api_key of ask_vs.py (lines 20-30).  `os.environ` is an
oracle from variable names to their values (`none` = unset); the `.env.local`
file is `none` when absent, otherwise its list of lines. -/

/-- Python truthiness of an optional string: None and the empty string are
falsy. -/
def pyTruthy (o : Option (List Char)) : Bool := o.getD [] ≠ []

/-- Python `a or b` on optional strings: the first operand if truthy, else
the second operand's value. -/
def pyOrOpt (a b : Option (List Char)) : Option (List Char) :=
  if pyTruthy a then a else b

/-- Python `line.startswith(pre)`. -/
def listStartsWith (pre s : List Char) : Bool := s.take pre.length == pre

/-- Python `s.split(sep, 1)[1]` for a one-character separator occurring in
`s`: everything after the first occurrence. -/
def afterFirstEq (s : List Char) : List Char := (s.dropWhile (· ≠ '=')).drop 1

/-- Python `s.strip(c)` for a single character: drop it from both ends. -/
def pyStripChar (c : Char) (s : List Char) : List Char :=
  ((s.dropWhile (· = c)).reverse.dropWhile (· = c)).reverse

/-- The `.strip().strip('"').strip("'")` chain applied to extracted values. -/
def stripValue (s : List Char) : List Char :=
  pyStripChar '\x27' (pyStripChar '"' (pyStrip s))

/-- Result of a credential loader: `sys.exit(code)` or a returned key. -/
inductive CredResult
  | exited (code : Nat)
  | key (value : List Char)
deriving DecidableEq

/-- The `for line in ...splitlines()` scan of gen_image.py lines 34-38:
first line whose stripped form starts with GOOGLE_API_KEY= or the
misspelled GOOLE_API_KEY= wins; its value is split off the stripped line
and quote-stripped. -/
def scanGoogleEnvFile : List (List Char) → Option (List Char)
  | [] => none
  | line :: rest =>
    let str := pyStrip line
    if listStartsWith ("GOOGLE_API_KEY=".toList) str ∨
        listStartsWith ("GOOLE_API_KEY=".toList) str then
      some (stripValue (afterFirstEq str))
    else scanGoogleEnvFile rest

/-- load_google_api_key, gen_image.py lines 31-42. -/
def load_google_api_key (env : List Char → Option (List Char))
    (envLocal : Option (List (List Char))) : CredResult :=
  let key0 := pyOrOpt (env ("GOOGLE_API_KEY".toList)) (env ("GOOLE_API_KEY".toList))
  let key1 :=
    if ¬ pyTruthy key0 then
      match envLocal with
      | some lines =>
        match scanGoogleEnvFile lines with
        | some v => some v
        | none => key0
      | none => key0
    else key0
  if ¬ pyTruthy key1 then .exited 1 else .key (key1.getD [])

/-- First valid `.env.local` binding for `name` (helper of load_env,
quizit_storage.py lines 20-25): a line is considered when it has an `=` and
its stripped form is not a comment; the first one whose stripped key
matches provides the (quote-stripped) value — later duplicates are ignored,
as `setdefault` does. -/
def firstFileVal : List (List Char) → List Char → Option (List Char)
  | [], _ => none
  | line :: rest, name =>
    if line.contains '=' ∧ ¬ listStartsWith ("#".toList) (pyStrip line) then
      if pyStrip (line.takeWhile (· ≠ '=')) = name then
        some (stripValue (afterFirstEq line))
      else firstFileVal rest name
    else firstFileVal rest name

/-- One lookup through load_env of quizit_storage.py lines 17-26: the real
environment wins; otherwise the `.env.local` file provides the value. -/
def load_env_lookup (environ : List Char → Option (List Char))
    (envLocal : Option (List (List Char))) (name : List Char) : Option (List Char) :=
  match environ name with
  | some v => some v
  | none =>
    match envLocal with
    | none => none
    | some lines => firstFileVal lines name

/-- Result of get_sp_client: `sys.exit(1)` or a created client, observable
by the url/key pair passed to create_client. -/
inductive SpResult
  | exited (code : Nat)
  | client (url anonKey : List Char)
deriving DecidableEq

/-- get_sp_client, quizit_storage.py lines 29-37. -/
def get_sp_client (environ : List Char → Option (List Char))
    (envLocal : Option (List (List Char))) : SpResult :=
  let url := load_env_lookup environ envLocal ("VITE_SUPABASE_URL".toList)
  let anonKey := load_env_lookup environ envLocal ("VITE_SUPABASE_ANON_KEY".toList)
  if ¬ pyTruthy url ∨ ¬ pyTruthy anonKey then .exited 1
  else .client (url.getD []) (anonKey.getD [])

/-- The `.env.local` scan of ask_vs.py lines 22-26: the match is tested on
the stripped line but — unlike gen_image.py — the value is split off the
original, unstripped line. -/
def scanOpenaiEnvFile : List (List Char) → Option (List Char)
  | [] => none
  | line :: rest =>
    if listStartsWith ("OPENAI_API_KEY=".toList) (pyStrip line) then
      some (stripValue (afterFirstEq line))
    else scanOpenaiEnvFile rest

/-- load_api_key, ask_vs.py lines 20-30. -/
def load_api_key (env : List Char → Option (List Char))
    (envLocal : Option (List (List Char))) : CredResult :=
  let key0 := env ("OPENAI_API_KEY".toList)
  let key1 :=
    if ¬ pyTruthy key0 then
      match envLocal with
      | some lines =>
        match scanOpenaiEnvFile lines with
        | some v => some v
        | none => key0
      | none => key0
    else key0
  if ¬ pyTruthy key1 then .exited 1 else .key (key1.getD [])

theorem scanGoogleEnvFile_none : ∀ lines, (∀ l ∈ lines,
    listStartsWith ("GOOGLE_API_KEY=".toList) (pyStrip l) = false ∧
    listStartsWith ("GOOLE_API_KEY=".toList) (pyStrip l) = false) →
    scanGoogleEnvFile lines = none := by
  intro lines
  induction lines with
  | nil => intro h; rfl
  | cons line rest ih =>
    intro h
    rw [scanGoogleEnvFile]
    obtain ⟨ha, hb⟩ := h line (List.mem_cons_self _ _)
    rw [if_neg (by rw [ha, hb]; simp)]
    exact ih (fun l hl => h l (List.mem_cons_of_mem _ hl))

theorem firstFileVal_none : ∀ lines name,
    (∀ l ∈ lines, pyStrip (l.takeWhile (· ≠ '=')) ≠ name) →
    firstFileVal lines name = none := by
  intro lines name
  induction lines with
  | nil => intro h; rfl
  | cons line rest ih =>
    intro h
    have hk := h line (List.mem_cons_self _ _)
    have hrest := ih (fun l hl => h l (List.mem_cons_of_mem _ hl))
    rw [firstFileVal]
    split <;> exact hrest

theorem scanOpenaiEnvFile_none : ∀ lines, (∀ l ∈ lines,
    listStartsWith ("OPENAI_API_KEY=".toList) (pyStrip l) = false) →
    scanOpenaiEnvFile lines = none := by
  intro lines
  induction lines with
  | nil => intro h; rfl
  | cons line rest ih =>
    intro h
    rw [scanOpenaiEnvFile]
    rw [if_neg (by rw [h line (List.mem_cons_self _ _)]; simp)]
    exact ih (fun l hl => h l (List.mem_cons_of_mem _ hl))

/-- C7: each credential loader exits the process with status 1 (rather than
returning or raising) when its credential is present neither in the
environment nor in the `.env.local` fallback: the Google key (either
spelling, gen_image.py line 41), either half of the Supabase url/key pair
(quizit_storage.py line 36), and the OpenAI key (ask_vs.py line 29). -/
theorem C7_missing_credentials_exit
    (envG envS envO : List Char → Option (List Char))
    (fileG fileS fileO : Option (List (List Char))) :
    (pyTruthy (envG ("GOOGLE_API_KEY".toList)) = false →
      pyTruthy (envG ("GOOLE_API_KEY".toList)) = false →
      (∀ lines, fileG = some lines → ∀ l ∈ lines,
        listStartsWith ("GOOGLE_API_KEY=".toList) (pyStrip l) = false ∧
        listStartsWith ("GOOLE_API_KEY=".toList) (pyStrip l) = false) →
      load_google_api_key envG fileG = CredResult.exited 1) ∧
    (envS ("VITE_SUPABASE_URL".toList) = none →
      (∀ lines, fileS = some lines → ∀ l ∈ lines,
        pyStrip (l.takeWhile (· ≠ '=')) ≠ ("VITE_SUPABASE_URL".toList)) →
      get_sp_client envS fileS = SpResult.exited 1) ∧
    (envS ("VITE_SUPABASE_ANON_KEY".toList) = none →
      (∀ lines, fileS = some lines → ∀ l ∈ lines,
        pyStrip (l.takeWhile (· ≠ '=')) ≠ ("VITE_SUPABASE_ANON_KEY".toList)) →
      get_sp_client envS fileS = SpResult.exited 1) ∧
    (pyTruthy (envO ("OPENAI_API_KEY".toList)) = false →
      (∀ lines, fileO = some lines → ∀ l ∈ lines,
        listStartsWith ("OPENAI_API_KEY=".toList) (pyStrip l) = false) →
      load_api_key envO fileO = CredResult.exited 1) := by
  refine ⟨?_, ?_, ?_, ?_⟩
  · intro hG1 hG2 hGf
    simp at hG1 hG2
    cases fileG with
    | none => simp [load_google_api_key, pyOrOpt, hG1, hG2]
    | some lines =>
      simp [load_google_api_key, pyOrOpt, hG1, hG2,
        scanGoogleEnvFile_none lines (hGf lines rfl)]
  · intro hS1 hSf
    have hlook : load_env_lookup envS fileS ("VITE_SUPABASE_URL".toList) = none := by
      unfold load_env_lookup
      rw [hS1]
      cases fileS with
      | none => rfl
      | some lines => exact firstFileVal_none lines _ (hSf lines rfl)
    simp at hlook
    simp [get_sp_client, hlook, pyTruthy]
  · intro hS1 hSf
    have hlook : load_env_lookup envS fileS ("VITE_SUPABASE_ANON_KEY".toList) = none := by
      unfold load_env_lookup
      rw [hS1]
      cases fileS with
      | none => rfl
      | some lines => exact firstFileVal_none lines _ (hSf lines rfl)
    simp at hlook
    simp [get_sp_client, hlook, pyTruthy]
  · intro hO1 hOf
    simp at hO1
    cases fileO with
    | none => simp [load_api_key, hO1]
    | some lines =>
      simp [load_api_key, hO1, scanOpenaiEnvFile_none lines (hOf lines rfl)]

/-- Witness for C7: an empty environment and no `.env.local` file. -/
theorem C7_missing_credentials_exit_witness :
    load_google_api_key (fun _ => none) none = CredResult.exited 1 ∧
    get_sp_client (fun _ => none) none = SpResult.exited 1 ∧
    get_sp_client (fun _ => none) none = SpResult.exited 1 ∧
    load_api_key (fun _ => none) none = CredResult.exited 1 :=
  ⟨(C7_missing_credentials_exit (fun _ => none) (fun _ => none) (fun _ => none)
      none none none).1 rfl rfl (fun lines h => by cases h),
   (C7_missing_credentials_exit (fun _ => none) (fun _ => none) (fun _ => none)
      none none none).2.1 rfl (fun lines h => by cases h),
   (C7_missing_credentials_exit (fun _ => none) (fun _ => none) (fun _ => none)
      none none none).2.2.1 rfl (fun lines h => by cases h),
   (C7_missing_credentials_exit (fun _ => none) (fun _ => none) (fun _ => none)
      none none none).2.2.2 rfl (fun lines h => by cases h)⟩

end Quizit
